import Mathlib

/-!
Shallow embedding of the satellite-orbit visualization pipeline:

* `build_times` (app.py lines 52-59 and orbit_propagation.py lines 9-19,
  the two copies are textually identical),
* `propagate_positions` from app.py lines 65-80 (sgp4 variant) and from
  orbit_propagation.py lines 21-57 (skyfield variant, named
  `op_propagate_positions` here),
* the animation frame assembly loop of app.py lines 97-120,
* `fetch_tle` from tle_utils.py lines 7-36.

Timestamps are modeled as integer minutes since an arbitrary epoch, so
`timedelta(days=d)` is `d * 1440` minutes and `timedelta(minutes=m)` is `m`.
The `while` loop of `build_times` is embedded with an explicit fuel bound:
the result `none` means the loop performed `fuel` iterations without
terminating, so non-termination of the Python loop is expressed as
returning `none` for every fuel value.
-/

/-- Embedding of the loop body of `build_times`:
`while t <= end: times.append(t); t += timedelta(minutes=step_minutes)`.
The accumulator is the `times` list built so far. -/
def build_times_loop (fuel : Nat) (t endT step : Int) (acc : List Int) :
    Option (List Int) :=
  match fuel with
  | 0 => none
  | Nat.succ n =>
    if t ≤ endT then build_times_loop n (t + step) endT step (acc ++ [t])
    else some acc

/-- Embedding of `build_times(start, days, step_minutes)`:
`end = start + timedelta(days=days)` and then the while loop above,
starting from `t = start` with an empty `times` list. -/
def build_times (fuel : Nat) (start days step_minutes : Int) :
    Option (List Int) :=
  build_times_loop fuel start (start + days * 1440) step_minutes []

/-- Number of timestamps the loop appends when started at `t`
(zero when the loop condition fails immediately). -/
def grid_len (t endT step : Int) : Nat :=
  if t ≤ endT then ((endT - t) / step).toNat + 1 else 0

lemma build_times_loop_ok (step : Int) (hs : 0 < step) :
    ∀ (fuel : Nat) (t endT : Int) (acc : List Int),
      grid_len t endT step + 1 ≤ fuel →
      build_times_loop fuel t endT step acc =
        some (acc ++ (List.range (grid_len t endT step)).map
          (fun k : Nat => (t + (k : Int) * step : Int))) := by
  intro fuel
  induction fuel with
  | zero => intro t endT acc hf; omega
  | succ n ih =>
    intro t endT acc hf
    by_cases h : t ≤ endT
    · have hm0 : 0 ≤ (endT - t) / step :=
        Int.ediv_nonneg (by omega) (by omega)
      have hgl : grid_len t endT step = ((endT - t) / step).toNat + 1 := by
        simp [grid_len, h]
      rw [build_times_loop, if_pos h]
      by_cases h2 : t + step ≤ endT
      · -- at least one more iteration after this one
        have hstep : (endT - (t + step)) / step = (endT - t) / step - 1 := by
          have h1 := Int.add_mul_ediv_right (endT - t) (-1)
            (by omega : step ≠ 0)
          have harg : endT - (t + step) = endT - t + -1 * step := by ring
          rw [harg, h1]; ring
        have hm1 : 1 ≤ (endT - t) / step := by
          have h3 : step / step ≤ (endT - t) / step :=
            Int.ediv_le_ediv hs (by omega)
          rwa [Int.ediv_self (by omega)] at h3
        have hgl2 : grid_len (t + step) endT step =
            ((endT - t) / step).toNat := by
          rw [grid_len, if_pos h2, hstep]
          omega
        have hmap : (List.range (((endT - t) / step).toNat + 1)).map
            (fun k : Nat => (t + (k : Int) * step : Int)) =
            t :: (List.range ((endT - t) / step).toNat).map
              (fun k : Nat => (t + step + (k : Int) * step : Int)) := by
          rw [List.range_succ_eq_map]
          simp only [List.map_cons, List.map_map, Nat.cast_zero, zero_mul,
            add_zero]
          refine congrArg (t :: ·) ?_
          apply List.map_congr_left
          intro k _
          simp only [Function.comp_apply]
          push_cast
          ring
        rw [ih (t + step) endT (acc ++ [t]) (by omega)]
        rw [hgl, hgl2, hmap]
        simp
      · -- the loop exits at the next check
        have hlt : endT - t < step := by omega
        have hz : (endT - t) / step = 0 :=
          Int.ediv_eq_zero_of_lt (by omega) hlt
        have hgl2 : grid_len (t + step) endT step = 0 := by
          simp [grid_len, h2]
        rw [ih (t + step) endT (acc ++ [t]) (by omega)]
        rw [hgl, hgl2, hz]
        simp [List.range_succ]
    · rw [build_times_loop, if_neg h]
      have : grid_len t endT step = 0 := by simp [grid_len, h]
      rw [this]
      simp

/-- For nonnegative duration and positive step, `build_times` terminates and
produces exactly the arithmetic progression of timestamps. -/
lemma build_times_ok (start days step : Int) (fuel : Nat) (hd : 0 ≤ days)
    (hs : 0 < step) (hf : (days * 1440 / step).toNat + 2 ≤ fuel) :
    build_times fuel start days step =
      some ((List.range ((days * 1440 / step).toNat + 1)).map
        (fun k : Nat => (start + (k : Int) * step : Int))) := by
  have hle : start ≤ start + days * 1440 := by nlinarith
  have hgl : grid_len start (start + days * 1440) step =
      (days * 1440 / step).toNat + 1 := by
    simp [grid_len, hle]
  rw [build_times, build_times_loop_ok step hs fuel start (start + days * 1440)
    [] (by omega)]
  rw [hgl]
  simp

/-- With a non-positive step and a nonnegative duration the loop condition
stays true forever, so every fuel bound is exhausted. -/
lemma build_times_loop_nonpos (step : Int) (hs : step ≤ 0) :
    ∀ (fuel : Nat) (t endT : Int) (acc : List Int), t ≤ endT →
      build_times_loop fuel t endT step acc = none := by
  intro fuel
  induction fuel with
  | zero => intro t endT acc _; rfl
  | succ n ih =>
    intro t endT acc h
    rw [build_times_loop, if_pos h]
    exact ih (t + step) endT (acc ++ [t]) (by omega)

/-- Claim C1: for every start timestamp, every duration in days > 0 and every
step in minutes > 0, `build_times` terminates (given enough fuel for the
Python while loop) and returns a sequence of exactly
floor(durationDays*1440/stepMinutes) + 1 timestamps whose first element is
`start` and in which every element exceeds its predecessor by exactly
`stepMinutes` (hence strictly increasing). -/
theorem C1_build_times_grid (start days step : Int) (fuel : Nat)
    (hd : 0 < days) (hs : 0 < step)
    (hf : (days * 1440 / step).toNat + 2 ≤ fuel) :
    ∃ l, build_times fuel start days step = some l ∧
      l.length = (days * 1440 / step).toNat + 1 ∧
      l[0]? = some start ∧
      ∀ i : Nat, i + 1 < l.length →
        ∃ a, l[i]? = some a ∧ l[i + 1]? = some (a + step) := by
  refine ⟨_, build_times_ok start days step fuel (by omega) hs hf, ?_, ?_, ?_⟩
  · simp
  · simp [List.getElem?_map, List.getElem?_range]
  · intro i hi
    simp only [List.length_map, List.length_range] at hi
    refine ⟨start + (i : Int) * step, ?_, ?_⟩
    · have hi0 : i < (days * 1440 / step).toNat + 1 := by omega
      simp [List.getElem?_map, List.getElem?_range hi0]
    · have hi1 : i + 1 < (days * 1440 / step).toNat + 1 := by omega
      simp only [List.getElem?_map, List.getElem?_range hi1,
        Option.map_some']
      refine congrArg some ?_
      push_cast
      ring

theorem C1_build_times_grid_witness :
    ∃ l, build_times 5 0 1 720 = some l ∧
      l.length = ((1 : Int) * 1440 / 720).toNat + 1 ∧
      l[0]? = some 0 ∧
      ∀ i : Nat, i + 1 < l.length →
        ∃ a, l[i]? = some a ∧ l[i + 1]? = some (a + 720) :=
  C1_build_times_grid 0 1 720 5 (by decide) (by decide) (by decide)

/-- Claim C7 counterexample: with duration = -1 day and step = 1 minute,
`build_times` does not fail with any error: it terminates normally and
returns the empty sequence, contradicting the claim that degenerate
durations are rejected with an InvalidConfiguration error. -/
theorem C7_counterexample : build_times 5 0 (-1) 1 = some [] := by decide

/-- Claim C7 (amended): `build_times` performs no input validation and has
no error path. With duration < 0 it terminates and returns the empty
sequence; with duration = 0 and step > 0 it returns the singleton `[start]`;
and with step ≤ 0 and duration ≥ 0 the while loop never terminates (it
exhausts every fuel bound). -/
theorem C7_no_validation (start days step : Int) (fuel : Nat) :
    (days < 0 → 1 ≤ fuel → build_times fuel start days step = some []) ∧
    (days = 0 → 0 < step → 2 ≤ fuel →
      build_times fuel start days step = some [start]) ∧
    (0 ≤ days → step ≤ 0 → build_times fuel start days step = none) := by
  refine ⟨?_, ?_, ?_⟩
  · intro hd hf
    match fuel, hf with
    | Nat.succ n, _ =>
      rw [build_times, build_times_loop, if_neg (by omega)]
  · intro hd hs hf
    subst hd
    rw [build_times_ok start 0 step fuel le_rfl hs (by simpa using hf)]
    simp [List.range_succ]
  · intro hd hs
    rw [build_times]
    exact build_times_loop_nonpos step hs fuel start _ [] (by omega)

theorem C7_no_validation_witness :
    build_times 5 0 (-1) 2 = some [] ∧ build_times 5 7 0 3 = some [7] ∧
    build_times 5 0 1 0 = none :=
  ⟨(C7_no_validation 0 (-1) 2 5).1 (by decide) (by decide),
   (C7_no_validation 7 0 3 5).2.1 rfl (by decide) (by decide),
   (C7_no_validation 0 1 0 5).2.2 (by decide) (by decide)⟩

/-- Claim C8 counterexample: a duration of 1 day is outside the documented
range [7,35] (the step of 30 minutes is in range), yet the core computes a
full 49-element grid with it instead of rejecting the configuration with an
error. The [7,35] and [5,120] bounds exist only as UI slider limits in
app.py lines 17-18; the core itself never checks them. -/
theorem C8_counterexample :
    (build_times 51 0 1 30).isSome = true ∧
    (build_times 51 0 1 30).map List.length = some 49 := by decide

/-- Claim C8 (amended): the core performs no range validation at all. For
every configuration whose duration or step lies outside [7,35] x [5,120]
(but is positive), `build_times` silently computes the full grid with the
given values; it neither rejects nor clamps. Range limits are enforced only
by the UI sliders, which prevent out-of-range values from being entered. -/
theorem C8_no_range_check (start days step : Int) (fuel : Nat)
    (_hout : days < 7 ∨ 35 < days ∨ step < 5 ∨ 120 < step)
    (hd : 0 < days) (hs : 0 < step)
    (hf : (days * 1440 / step).toNat + 2 ≤ fuel) :
    build_times fuel start days step =
      some ((List.range ((days * 1440 / step).toNat + 1)).map
        (fun k : Nat => (start + (k : Int) * step : Int))) :=
  build_times_ok start days step fuel (by omega) hs hf

theorem C8_no_range_check_witness :
    build_times 40 0 36 1440 =
      some ((List.range (((36 : Int) * 1440 / 1440).toNat + 1)).map
        (fun k : Nat => ((0 : Int) + (k : Int) * 1440 : Int))) :=
  C8_no_range_check 0 36 1440 40 (Or.inr (Or.inl (by decide))) (by decide)
    (by decide) (by decide)

/-- Embedding of `propagate_positions` from app.py lines 65-80. The external
collaborators are parameters: `twoline2rv` models `Satrec.twoline2rv(l1,l2)`
(which raises on a malformed TLE, modeled as `Except.error`), `jday` models
the `jday(...)` conversion of a timestamp into a Julian-date pair, and
`sgp4` models `sat.sgp4(jd, fr)` returning an error code, a position and a
velocity. The Python `for name, (l0, l1, l2) in tle_map.items()` loop over
an insertion-ordered dict is the recursion over the association list; a
raised exception propagates, aborting the whole loop (there is no
try/except in the source). A valid ECI sample `[r[0], r[1], r[2]]` is
`some r`; the `[None, None, None]` sentinel row is `none`. `np.array` is a
representation change and is dropped. -/
def propagate_positions {Sat Time J R Err : Type}
    (twoline2rv : String → String → Except Err Sat)
    (jday : Time → J)
    (sgp4 : Sat → J → Int × (R × R × R) × (R × R × R))
    (tle_map : List (String × String × String × String))
    (times : List Time) :
    Except Err (List (String × List Time × List (Option (R × R × R)))) :=
  match tle_map with
  | [] => Except.ok []
  | (name, _l0, l1, l2) :: rest =>
    match twoline2rv l1 l2 with
    | Except.error e => Except.error e
    | Except.ok sat =>
      let eci_list := times.map fun t =>
        match sgp4 sat (jday t) with
        | (e, r, _v) => if e = 0 then some r else none
      match propagate_positions twoline2rv jday sgp4 rest times with
      | Except.error e => Except.error e
      | Except.ok results => Except.ok ((name, times, eci_list) :: results)

/-- Embedding of `propagate_positions` from orbit_propagation.py lines
21-57 (the skyfield variant). `earthSatellite` models
`EarthSatellite(l1, l2, name, ts)` (which raises on a malformed TLE),
`utc` models `ts.utc(...)`, `at_sat` models `sat.at(sky_t)`, and
`position_km` / `frame_xyz_itrs_km` model `geocentric.position.km` and
`geocentric.frame_xyz(itrs).km`. The Python loop computes `geocentric`
once per timestamp and appends to `eci_list` and `ecef_list` in lock step;
that builds the same two lists as the two maps here. -/
def op_propagate_positions {Sat Time SkyT Geo R3 Err : Type}
    (utc : Time → SkyT)
    (earthSatellite : String → String → String → Except Err Sat)
    (at_sat : Sat → SkyT → Geo)
    (position_km : Geo → R3)
    (frame_xyz_itrs_km : Geo → R3)
    (tle_map : List (String × String × String))
    (times : List Time) :
    Except Err (List (String × List Time × List R3 × List R3)) :=
  match tle_map with
  | [] => Except.ok []
  | (name, l1, l2) :: rest =>
    match earthSatellite l1 l2 name with
    | Except.error e => Except.error e
    | Except.ok sat =>
      let eci_list := times.map fun t => position_km (at_sat sat (utc t))
      let ecef_list := times.map fun t =>
        frame_xyz_itrs_km (at_sat sat (utc t))
      match op_propagate_positions utc earthSatellite at_sat position_km
          frame_xyz_itrs_km rest times with
      | Except.error e => Except.error e
      | Except.ok results =>
        Except.ok ((name, times, eci_list, ecef_list) :: results)

/-- When every element set in the batch parses, the app.py propagation loop
returns one entry per object, in order, whose trajectory is the sample
function mapped over the full time grid. -/
lemma propagate_positions_all_ok {Sat Time J R Err : Type}
    (twoline2rv : String → String → Except Err Sat) (jday : Time → J)
    (sgp4 : Sat → J → Int × (R × R × R) × (R × R × R))
    (satOf : String → String → Sat) (times : List Time) :
    ∀ tle_map : List (String × String × String × String),
      (∀ e ∈ tle_map, twoline2rv e.2.2.1 e.2.2.2 =
        Except.ok (satOf e.2.2.1 e.2.2.2)) →
      propagate_positions twoline2rv jday sgp4 tle_map times =
        Except.ok (tle_map.map fun e =>
          (e.1, times, times.map fun t =>
            match sgp4 (satOf e.2.2.1 e.2.2.2) (jday t) with
            | (ec, r, _v) => if ec = 0 then some r else none)) := by
  intro tle_map
  induction tle_map with
  | nil => intro _; rfl
  | cons head rest ih =>
    intro h
    obtain ⟨name, l0, l1, l2⟩ := head
    have hhead := h (name, l0, l1, l2) (List.mem_cons_self _ _)
    simp only at hhead
    rw [propagate_positions, hhead,
      ih (fun e he => h e (List.mem_cons_of_mem _ he))]
    simp

/-- When every element set in the batch parses, the orbit_propagation.py
loop returns one entry per object, in order, with the ECI and ECEF sample
functions mapped over the full time grid. -/
lemma op_propagate_positions_all_ok {Sat Time SkyT Geo R3 Err : Type}
    (utc : Time → SkyT)
    (earthSatellite : String → String → String → Except Err Sat)
    (at_sat : Sat → SkyT → Geo) (position_km : Geo → R3)
    (frame_xyz_itrs_km : Geo → R3) (satOf : String → String → String → Sat)
    (times : List Time) :
    ∀ tle_map : List (String × String × String),
      (∀ e ∈ tle_map, earthSatellite e.2.1 e.2.2 e.1 =
        Except.ok (satOf e.2.1 e.2.2 e.1)) →
      op_propagate_positions utc earthSatellite at_sat position_km
          frame_xyz_itrs_km tle_map times =
        Except.ok (tle_map.map fun e =>
          (e.1, times,
            times.map fun t =>
              position_km (at_sat (satOf e.2.1 e.2.2 e.1) (utc t)),
            times.map fun t =>
              frame_xyz_itrs_km (at_sat (satOf e.2.1 e.2.2 e.1) (utc t)))) := by
  intro tle_map
  induction tle_map with
  | nil => intro _; rfl
  | cons head rest ih =>
    intro h
    obtain ⟨name, l1, l2⟩ := head
    have hhead := h (name, l1, l2) (List.mem_cons_self _ _)
    simp only at hhead
    rw [op_propagate_positions, hhead,
      ih (fun e he => h e (List.mem_cons_of_mem _ he))]
    simp

/-- Claim C2: for every TLE map (whose element sets all parse, as the spec
presumes: the core requires some valid element set per object before
propagation begins) and every time grid, both propagation variants return
one trajectory per input object, with the object names in input order, and
every trajectory has exactly one position sample per grid timestamp. -/
theorem C2_trajectory_lengths {Sat Time J R Err : Type}
    {Sat2 Time2 SkyT Geo R3 Err2 : Type}
    (twoline2rv : String → String → Except Err Sat) (jday : Time → J)
    (sgp4 : Sat → J → Int × (R × R × R) × (R × R × R))
    (satOf : String → String → Sat)
    (tle_map : List (String × String × String × String)) (times : List Time)
    (h : ∀ e ∈ tle_map, twoline2rv e.2.2.1 e.2.2.2 =
      Except.ok (satOf e.2.2.1 e.2.2.2))
    (utc : Time2 → SkyT)
    (earthSatellite : String → String → String → Except Err2 Sat2)
    (at_sat : Sat2 → SkyT → Geo) (position_km : Geo → R3)
    (frame_xyz_itrs_km : Geo → R3)
    (satOf2 : String → String → String → Sat2)
    (tle_map2 : List (String × String × String)) (times2 : List Time2)
    (h2 : ∀ e ∈ tle_map2, earthSatellite e.2.1 e.2.2 e.1 =
      Except.ok (satOf2 e.2.1 e.2.2 e.1)) :
    (∃ res, propagate_positions twoline2rv jday sgp4 tle_map times =
        Except.ok res ∧
      res.map Prod.fst = tle_map.map Prod.fst ∧
      ∀ p ∈ res, p.2.1 = times ∧ p.2.2.length = times.length) ∧
    (∃ res2, op_propagate_positions utc earthSatellite at_sat position_km
        frame_xyz_itrs_km tle_map2 times2 = Except.ok res2 ∧
      res2.map Prod.fst = tle_map2.map Prod.fst ∧
      ∀ p ∈ res2, p.2.1 = times2 ∧ p.2.2.1.length = times2.length ∧
        p.2.2.2.length = times2.length) := by
  constructor
  · refine ⟨_, propagate_positions_all_ok twoline2rv jday sgp4 satOf times
      tle_map h, ?_, ?_⟩
    · rw [List.map_map]; rfl
    · intro p hp
      obtain ⟨e, _he, rfl⟩ := List.mem_map.mp hp
      exact ⟨rfl, by simp⟩
  · refine ⟨_, op_propagate_positions_all_ok utc earthSatellite at_sat
      position_km frame_xyz_itrs_km satOf2 times2 tle_map2 h2, ?_, ?_⟩
    · rw [List.map_map]; rfl
    · intro p hp
      obtain ⟨e, _he, rfl⟩ := List.mem_map.mp hp
      exact ⟨rfl, by simp, by simp⟩

theorem C2_trajectory_lengths_witness :
    (∃ res, propagate_positions
        (fun _l1 _l2 => (Except.ok () : Except Unit Unit))
        (fun _t : Unit => ())
        (fun _sat _j => ((0 : Int), (((), (), ()) : Unit × Unit × Unit),
          (((), (), ()) : Unit × Unit × Unit)))
        [("ISS", "l0", "l1", "l2")] [(), ()] = Except.ok res ∧
      res.map Prod.fst = [("ISS", "l0", "l1", "l2")].map Prod.fst ∧
      ∀ p ∈ res, p.2.1 = [(), ()] ∧
        p.2.2.length = [(), ()].length) ∧
    (∃ res2, op_propagate_positions
        (fun _t : Unit => ())
        (fun _l1 _l2 _name => (Except.ok () : Except Unit Unit))
        (fun _sat _skyt => ()) (fun _geo => (0 : Int)) (fun _geo => (1 : Int))
        [("ISS", "l1", "l2")] [(), ()] = Except.ok res2 ∧
      res2.map Prod.fst = [("ISS", "l1", "l2")].map Prod.fst ∧
      ∀ p ∈ res2, p.2.1 = [(), ()] ∧ p.2.2.1.length = [(), ()].length ∧
        p.2.2.2.length = [(), ()].length) :=
  C2_trajectory_lengths (fun _ _ => Except.ok ()) (fun _ => ())
    (fun _ _ => ((0 : Int), ((), (), ()), ((), (), ())))
    (fun _ _ => ()) [("ISS", "l0", "l1", "l2")] [(), ()]
    (fun _ _ => rfl)
    (fun _ => ()) (fun _ _ _ => Except.ok ()) (fun _ _ => ())
    (fun _ => (0 : Int)) (fun _ => (1 : Int)) (fun _ _ _ => ())
    [("ISS", "l1", "l2")] [(), ()] (fun _ _ => rfl)

/-- Claim C3: in the app.py variant, for every object whose element set
parses and every grid timestamp, the trajectory sample at that index is the
sentinel `none` exactly when the propagator reports a nonzero error code
there, and `some r` otherwise. The sample at index i depends only on the
propagator output at timestamp i, so all other samples of that trajectory
and all other objects are unaffected; the trajectory keeps the full grid
length, and the batch completes without an exception. -/
theorem C3_sentinel_per_sample {Sat Time J R Err : Type}
    (twoline2rv : String → String → Except Err Sat) (jday : Time → J)
    (sgp4 : Sat → J → Int × (R × R × R) × (R × R × R))
    (satOf : String → String → Sat)
    (tle_map : List (String × String × String × String)) (times : List Time)
    (h : ∀ e ∈ tle_map, twoline2rv e.2.2.1 e.2.2.2 =
      Except.ok (satOf e.2.2.1 e.2.2.2)) :
    ∃ res, propagate_positions twoline2rv jday sgp4 tle_map times =
        Except.ok res ∧
      res.length = tle_map.length ∧
      ∀ (j : Nat) (name l0 l1 l2 : String),
        tle_map[j]? = some (name, l0, l1, l2) →
        ∃ traj, res[j]? = some (name, times, traj) ∧
          traj.length = times.length ∧
          ∀ i : Nat, i < times.length →
            ∃ t, times[i]? = some t ∧
              traj[i]? = some (match sgp4 (satOf l1 l2) (jday t) with
                | (ec, r, _v) => if ec = 0 then some r else none) := by
  refine ⟨_, propagate_positions_all_ok twoline2rv jday sgp4 satOf times
    tle_map h, by simp, ?_⟩
  intro j name l0 l1 l2 hj
  refine ⟨times.map (fun t => match sgp4 (satOf l1 l2) (jday t) with
    | (ec, r, _v) => if ec = 0 then some r else none), ?_, by simp, ?_⟩
  · rw [List.getElem?_map, hj]
    rfl
  · intro i hi
    have hti : times[i]? = some times[i] := List.getElem?_eq_getElem hi
    refine ⟨times[i], hti, ?_⟩
    rw [List.getElem?_map, hti]
    rfl

theorem C3_sentinel_per_sample_witness :
    ∃ res, propagate_positions
        (fun _l1 _l2 => (Except.ok () : Except Unit Unit))
        (fun t : Nat => t)
        (fun _sat j => ((if j = 1 then 1 else 0 : Int),
          ((7, 8, 9) : Int × Int × Int), ((0, 0, 0) : Int × Int × Int)))
        [("ISS", "l0", "l1", "l2")] [0, 1, 2] = Except.ok res ∧
      res.length = [("ISS", "l0", "l1", "l2")].length ∧
      ∀ (j : Nat) (name l0 l1 l2 : String),
        [("ISS", "l0", "l1", "l2")][j]? = some (name, l0, l1, l2) →
        ∃ traj, res[j]? = some (name, [0, 1, 2], traj) ∧
          traj.length = [0, 1, 2].length ∧
          ∀ i : Nat, i < [0, 1, 2].length →
            ∃ t, [0, 1, 2][i]? = some t ∧
              traj[i]? = some (match ((if t = 1 then 1 else 0 : Int),
                  ((7, 8, 9) : Int × Int × Int),
                  ((0, 0, 0) : Int × Int × Int)) with
                | (ec, r, _v) => if ec = 0 then some r else none) :=
  C3_sentinel_per_sample (fun _ _ => Except.ok ()) (fun t => t)
    (fun _ j => ((if j = 1 then 1 else 0 : Int), (7, 8, 9), (0, 0, 0)))
    (fun _ _ => ()) [("ISS", "l0", "l1", "l2")] [0, 1, 2] (fun _ _ => rfl)

/-- Claim C4 counterexample: a batch of N = 2 objects in which exactly one
element set (the second object, lines "BAD"/"ok2") is malformed. The
source has no try/except around `Satrec.twoline2rv`, so the parse failure
propagates out of the loop: the whole batch aborts with the error and the
result contains no trajectories at all, not the claimed N - 1 = 1. -/
theorem C4_counterexample :
    propagate_positions
      (fun l1 _l2 => if l1 = "BAD" then Except.error 0 else Except.ok 0)
      (fun _t : Unit => (0 : Int))
      (fun _sat _j => ((0 : Int), ((0, 0, 0) : Int × Int × Int),
        ((0, 0, 0) : Int × Int × Int)))
      [("ISS", "l0", "ok1", "ok2"), ("DECAYED", "l0", "BAD", "ok2")]
      [()] = Except.error 0 := by rfl

/-- Claim C4 (amended): a malformed element set for any object in the batch
aborts the entire run of propagate_positions: the parse error raised by
twoline2rv propagates (there is no per-object error handling), and no
trajectory is returned for any object, including the well-formed ones. -/
theorem C4_batch_aborts {Sat Time J R Err : Type}
    (twoline2rv : String → String → Except Err Sat) (jday : Time → J)
    (sgp4 : Sat → J → Int × (R × R × R) × (R × R × R))
    (tle_map : List (String × String × String × String)) (times : List Time)
    (h : ∃ e ∈ tle_map, ∃ err, twoline2rv e.2.2.1 e.2.2.2 =
      Except.error err) :
    ∃ err, propagate_positions twoline2rv jday sgp4 tle_map times =
      Except.error err := by
  induction tle_map with
  | nil => simp at h
  | cons head rest ih =>
    obtain ⟨name, l0, l1, l2⟩ := head
    cases htw : twoline2rv l1 l2 with
    | error e =>
      refine ⟨e, ?_⟩
      rw [propagate_positions, htw]
    | ok sat =>
      obtain ⟨e, he, err, herr⟩ := h
      rcases List.mem_cons.mp he with rfl | hmem
      · simp only at herr
        rw [htw] at herr
        cases herr
      · obtain ⟨err2, herr2⟩ := ih ⟨e, hmem, err, herr⟩
        refine ⟨err2, ?_⟩
        rw [propagate_positions, htw, herr2]

theorem C4_batch_aborts_witness :
    ∃ err, propagate_positions
      (fun l1 _l2 => if l1 = "BAD" then Except.error 1 else Except.ok 0)
      (fun _t : Unit => (0 : Int))
      (fun _sat _j => ((0 : Int), ((0, 0, 0) : Int × Int × Int),
        ((0, 0, 0) : Int × Int × Int)))
      [("GOOD1", "l0", "ok1", "ok2"), ("MALFORMED", "l0", "BAD", "ok2"),
        ("GOOD2", "l0", "ok1", "ok2")]
      [(), ()] = Except.error err :=
  C4_batch_aborts
    (fun l1 _l2 => if l1 = "BAD" then Except.error 1 else Except.ok 0)
    (fun _t : Unit => (0 : Int))
    (fun _sat _j => ((0 : Int), ((0, 0, 0) : Int × Int × Int),
      ((0, 0, 0) : Int × Int × Int)))
    [("GOOD1", "l0", "ok1", "ok2"), ("MALFORMED", "l0", "BAD", "ok2"),
      ("GOOD2", "l0", "ok1", "ok2")]
    [(), ()]
    ⟨("MALFORMED", "l0", "BAD", "ok2"), by decide, 1, by rfl⟩

/-- Trail length in samples, app.py line 101:
`trail_frames = max(1, int(6*60/step))`. For a positive step, Python
`int(6*60/step)` is floor division, i.e. Nat division here. -/
def trail_frames (step : Nat) : Nat := max 1 (6 * 60 / step)

/-- A plotly trace added to a frame, app.py lines 116-119. Only the data
relevant to the spec is kept: the polyline points of a trail trace, and the
current point, label and legend flag of a marker trace (styling fields such
as width, size and symbol are rendering attributes). The marker point is
`xyz[k]` in the source, which raises on an out-of-range index; the total
model stores `xyz[k]?` instead, with `none` for the out-of-range case. -/
inductive Scatter3d (α : Type) where
  | line (pts : List α) (showlegend : Bool)
  | marker (pt : Option α) (name : String) (showlegend : Bool)
  deriving DecidableEq

/-- One iteration of the frame loop, app.py lines 110-119: for frame index
`k`, iterate over `names` in order and append, per object, a trail trace
over `xyz[start_idx : k+1]` with `start_idx = max(0, k - trail_frames)`,
then a marker trace at `xyz[k]` whose showlegend flag is `k == 0`. The
`results[name]["eci_xyz"]` dict lookup is the function `results`, and the
Python slice `xyz[a : b]` (with 0 ≤ a ≤ b) is drop-then-take. Python
`max(0, k - tf)` on ints coincides with truncated Nat subtraction. -/
def frame_data {α : Type} (names : List String) (results : String → List α)
    (tf k : Nat) : List (Scatter3d α) :=
  names.flatMap fun name =>
    let xyz := results name
    let start_idx := max 0 (k - tf)
    let trail := (xyz.drop start_idx).take (k + 1 - start_idx)
    [Scatter3d.line trail false, Scatter3d.marker xyz[k]? name (k == 0)]

/-- The frame loop, app.py lines 109-120: one frame per grid index
`k = 0 .. num_frames - 1`, in grid order, each carrying its index (the
source names the frame `f{k}`) and its trace list. -/
def frames {α : Type} (names : List String) (results : String → List α)
    (tf num_frames : Nat) : List (Nat × List (Scatter3d α)) :=
  (List.range num_frames).map fun k => (k, frame_data names results tf k)

/-- Indexing into a flatMap that yields exactly two elements per input:
position 2i is the first element for input i, position 2i+1 the second. -/
lemma flatMap_pair_getElem {α β : Type} (g h : α → β) :
    ∀ (l : List α) (i : Nat),
      ((l.flatMap fun x => [g x, h x])[2 * i]? = (l[i]?).map g ∧
       (l.flatMap fun x => [g x, h x])[2 * i + 1]? = (l[i]?).map h) := by
  intro l
  induction l with
  | nil => intro i; simp
  | cons x xs ih =>
    intro i
    match i with
    | 0 => simp
    | Nat.succ i =>
      have h2 : 2 * (i + 1) = 2 * i + 1 + 1 := by omega
      rw [h2]
      simp only [List.flatMap_cons, List.cons_append, List.nil_append,
        List.getElem?_cons_succ]
      exact ih i

/-- Claim C5: for every frame index k in 0..N-1, every trail length L ≥ 1
and every object with a trajectory aligned to the N-element grid, the trail
trace of frame k for the i-th object is exactly the contiguous sub-sequence
of its trajectory from index max(0, k-L) to k inclusive (Nat subtraction
k - L is max(0, k-L)): its length is min(k+1, L+1), and its j-th point is
the trajectory sample at index (k - L) + j. In particular at k = 0 the
trail is the single point at index 0. -/
theorem C5_trail_window {α : Type} (names : List String)
    (results : String → List α) (L k N : Nat) (hL : 1 ≤ L) (hk : k < N)
    (i : Nat) (hi : i < names.length)
    (hlen : (results names[i]).length = N) :
    ∃ pts, (frame_data names results L k)[2 * i]? =
        some (Scatter3d.line pts false) ∧
      pts.length = min (k + 1) (L + 1) ∧
      ∀ j : Nat, j < pts.length →
        pts[j]? = (results names[i])[(k - L) + j]? := by
  have key := (flatMap_pair_getElem
    (fun name => Scatter3d.line
      (((results name).drop (max 0 (k - L))).take (k + 1 - max 0 (k - L)))
      false)
    (fun name => Scatter3d.marker (results name)[k]? name (k == 0))
    names i).1
  have hni : names[i]? = some names[i] := List.getElem?_eq_getElem hi
  rw [hni, Option.map_some'] at key
  refine ⟨((results names[i]).drop (max 0 (k - L))).take
    (k + 1 - max 0 (k - L)), key, ?_, ?_⟩
  · simp only [List.length_take, List.length_drop, hlen, Nat.zero_max]
    omega
  · intro j hj
    simp only [List.length_take, List.length_drop, hlen, Nat.zero_max] at hj
    have hjlt : j < k + 1 - max 0 (k - L) := by omega
    rw [List.getElem?_take_of_lt hjlt, List.getElem?_drop, Nat.zero_max]

theorem C5_trail_window_witness :
    ∃ pts,
      (frame_data ["A"] (fun _ : String => [10, 20, 30]) 1 1)[2 * 0]? =
        some (Scatter3d.line pts false) ∧
      pts.length = min (1 + 1) (1 + 1) ∧
      ∀ j : Nat, j < pts.length →
        pts[j]? =
          ((fun _ : String => [10, 20, 30]) (["A"][0]))[(1 - 1) + j]? :=
  C5_trail_window ["A"] (fun _ => [10, 20, 30]) 1 1 3 (by decide) (by decide)
    0 (by decide) (by decide)

/-- Claim C6: the frame sequence is ordered identically to the time grid
(the k-th frame is built for grid index k, for every k < N), and within
every frame the objects appear in the fixed `names` order: the marker trace
for the i-th object sits at trace slot 2i+1 in every frame and carries that
trajectory sample of that object at index k (`(results nm)[k]?`, which is
`some (Trajectory[nm][k])` whenever the trajectory covers index k),
together with the object name and the `k == 0` legend flag. -/
theorem C6_frame_order_and_marker {α : Type} (names : List String)
    (results : String → List α) (L N : Nat) :
    (frames names results L N).length = N ∧
    (∀ k : Nat, k < N →
      (frames names results L N)[k]? =
        some (k, frame_data names results L k)) ∧
    (∀ (k i : Nat) (nm : String), names[i]? = some nm →
      (frame_data names results L k)[2 * i + 1]? =
        some (Scatter3d.marker (results nm)[k]? nm (k == 0))) := by
  refine ⟨by simp [frames], ?_, ?_⟩
  · intro k hk
    simp [frames, List.getElem?_map, List.getElem?_range hk]
  · intro k i nm hnm
    have key := (flatMap_pair_getElem
      (fun name => Scatter3d.line
        (((results name).drop (max 0 (k - L))).take (k + 1 - max 0 (k - L)))
        false)
      (fun name => Scatter3d.marker (results name)[k]? name (k == 0))
      names i).2
    rw [hnm, Option.map_some'] at key
    exact key

theorem C6_frame_order_and_marker_witness :
    (frames ["A", "B"]
      (fun n => if n = "A" then [10, 20] else [50, 60]) 1 2).length = 2 ∧
    (frames ["A", "B"]
        (fun n => if n = "A" then [10, 20] else [50, 60]) 1 2)[1]? =
      some (1, frame_data ["A", "B"]
        (fun n => if n = "A" then [10, 20] else [50, 60]) 1 1) ∧
    (frame_data ["A", "B"]
        (fun n => if n = "A" then [10, 20] else [50, 60]) 1 1)[2 * 1 + 1]? =
      some (Scatter3d.marker
        ((fun n => if n = "A" then [10, 20] else [50, 60]) "B")[1]? "B"
        (1 == 0)) :=
  ⟨(C6_frame_order_and_marker ["A", "B"]
      (fun n => if n = "A" then [10, 20] else [50, 60]) 1 2).1,
   (C6_frame_order_and_marker ["A", "B"]
      (fun n => if n = "A" then [10, 20] else [50, 60]) 1 2).2.1 1
      (by decide),
   (C6_frame_order_and_marker ["A", "B"]
      (fun n => if n = "A" then [10, 20] else [50, 60]) 1 2).2.2 1 1 "B"
      (by decide)⟩

/-- Exceptions that can arise in `fetch_tle` (tle_utils.py): `network`
stands for any failure of `requests.get` / `resp.raise_for_status`, and
`indexError` for an out-of-range list subscript such as `lines[1]`. -/
inductive FetchErr where
  | network
  | indexError
  deriving DecidableEq

/-- Contents of the parsed `tle_cache.json` file: catalog number (as a
string, Python `str(catnr)`) to the list of response lines. -/
def TleCache : Type := List (String × List String)

/-- Dict update `cache[str(catnr)] = lines` on the parsed cache. -/
def cache_set (c : TleCache) (k : String) (v : List String) : TleCache :=
  match c with
  | [] => [(k, v)]
  | (k0, v0) :: rest =>
    if k0 = k then (k, v) :: rest else (k0, v0) :: cache_set rest k v

/-- Dict membership and access, `str(catnr) in cache` / `cache[str(catnr)]`. -/
def cache_get (c : TleCache) (k : String) : Option (List String) :=
  match c with
  | [] => none
  | (k0, v0) :: rest => if k0 = k then some v0 else cache_get rest k

/-- The hard-coded fallback ISS TLE pair, tle_utils.py lines 28-31. -/
def dummy_tle : String × String :=
  ("1 25544U 98067A   25225.12345678  .00006789  00000-0  12345-3 0  9991",
   "2 25544  51.6441 123.4567 0005678 123.4567 321.1234 15.50234567890123 0")

/-- Embedding of `fetch_tle(catnr)` from tle_utils.py. The HTTP layer is
the parameter `resp`: `Except.error FetchErr.network` when `requests.get`
or `raise_for_status` raises, otherwise the lines of
`resp.text.strip().split chr(10)` (string splitting itself is abstracted;
a real split always yields at least one line, but the model is total in
the line list). The cache file on disk is `disk` (`none` when the file
does not exist); the function returns the two lines together with the
disk state afterwards. The try block is evaluated first; any exception in
it carries the disk state at raise time (the cache write happens before
`return lines[0], lines[1]`, so an IndexError there leaves the freshly
written file behind). The except handler catches every exception from the
try block; an IndexError raised inside the handler itself
(`cache[str(catnr)][1]` on a short entry) propagates to the caller. -/
def fetch_tle (catnr : String) (resp : Except FetchErr (List String))
    (disk : Option TleCache) :
    Except FetchErr ((String × String) × Option TleCache) :=
  let tryResult : Except (FetchErr × Option TleCache)
      ((String × String) × Option TleCache) :=
    match resp with
    | Except.error e => Except.error (e, disk)
    | Except.ok lines =>
      let cache := match disk with
        | some c => c
        | none => []
      let cache := cache_set cache catnr lines
      let disk := some cache
      match lines[0]?, lines[1]? with
      | some a, some b => Except.ok ((a, b), disk)
      | _, _ => Except.error (FetchErr.indexError, disk)
  match tryResult with
  | Except.ok r => Except.ok r
  | Except.error (_, diskAtRaise) =>
    match diskAtRaise with
    | some cache =>
      match cache_get cache catnr with
      | some entry =>
        match entry[0]?, entry[1]? with
        | some a, some b => Except.ok ((a, b), diskAtRaise)
        | _, _ => Except.error FetchErr.indexError
      | none => Except.ok (dummy_tle, diskAtRaise)
    | none => Except.ok (dummy_tle, diskAtRaise)

/-- Claim C10 counterexample: a successful HTTP response whose body has a
single line. The one-line list is written to the cache file inside the try
block, then `return lines[0], lines[1]` raises IndexError; the except
handler finds the catalog number in the just-written cache and evaluates
`cache[str(catnr)][1]`, which raises IndexError again - this time outside
any handler, so `fetch_tle` propagates an exception to the caller instead
of returning a pair of lines. -/
theorem C10_counterexample :
    fetch_tle "25544" (Except.ok ["only one line"]) none =
      Except.error FetchErr.indexError := by rfl

lemma cache_get_set (k : String) (v : List String) :
    ∀ c : TleCache, cache_get (cache_set c k v) k = some v := by
  intro c
  induction c with
  | nil => simp [cache_set, cache_get]
  | cons head rest ih =>
    obtain ⟨k0, v0⟩ := head
    by_cases hk : k0 = k
    · simp [cache_set, cache_get, hk]
    · simp [cache_set, cache_get, hk, ih]

/-- Claim C10 (amended): `fetch_tle` returns a pair of two text lines and
never propagates the network/HTTP error itself: on a successful fetch whose
body has at least two lines it returns the first two and caches them; when
the fetch raises, it returns the cached pair when the cache file holds an
entry of at least two lines for the catalog number, and the hard-coded
dummy ISS pair when the cache file is absent or has no entry. However, the
only exception it can propagate is an IndexError, which occurs exactly when
a successful response body or a consulted cache entry has fewer than two
lines (see the counterexample); the network error is always caught. -/
theorem C10_fetch_tle_fallback (catnr : String)
    (resp : Except FetchErr (List String)) (disk : Option TleCache) :
    (∀ a b rest, resp = Except.ok (a :: b :: rest) →
      fetch_tle catnr resp disk =
        Except.ok ((a, b),
          some (cache_set (disk.getD []) catnr (a :: b :: rest)))) ∧
    (∀ e a b rest cache, resp = Except.error e → disk = some cache →
      cache_get cache catnr = some (a :: b :: rest) →
      fetch_tle catnr resp disk = Except.ok ((a, b), disk)) ∧
    (∀ e, resp = Except.error e →
      (∀ cache, disk = some cache → cache_get cache catnr = none) →
      fetch_tle catnr resp disk = Except.ok (dummy_tle, disk)) ∧
    (∀ err, fetch_tle catnr resp disk = Except.error err →
      err = FetchErr.indexError) := by
  refine ⟨?_, ?_, ?_, ?_⟩
  · intro a b rest hresp
    subst hresp
    cases disk <;> simp [fetch_tle]
  · intro e a b rest cache hresp hdisk hcg
    subst hresp
    subst hdisk
    simp [fetch_tle, hcg]
  · intro e hresp hmiss
    subst hresp
    cases disk with
    | none => rfl
    | some cache => simp [fetch_tle, hmiss cache rfl]
  · intro err herr
    cases resp with
    | ok lines =>
      match lines with
      | [] =>
        cases disk with
        | none =>
          have hcg := cache_get_set catnr [] []
          simp [fetch_tle, hcg] at herr
          exact herr.symm
        | some c =>
          have hcg := cache_get_set catnr [] c
          simp [fetch_tle, hcg] at herr
          exact herr.symm
      | [a] =>
        cases disk with
        | none =>
          have hcg := cache_get_set catnr [a] []
          simp [fetch_tle, hcg] at herr
          exact herr.symm
        | some c =>
          have hcg := cache_get_set catnr [a] c
          simp [fetch_tle, hcg] at herr
          exact herr.symm
      | a :: b :: rest => simp [fetch_tle] at herr
    | error e =>
      cases disk with
      | none => simp [fetch_tle] at herr
      | some cache =>
        cases hcg : cache_get cache catnr with
        | none => simp [fetch_tle, hcg] at herr
        | some entry =>
          match entry with
          | [] =>
            simp [fetch_tle, hcg] at herr
            exact herr.symm
          | [a] =>
            simp [fetch_tle, hcg] at herr
            exact herr.symm
          | a :: b :: rest => simp [fetch_tle, hcg] at herr

theorem C10_fetch_tle_fallback_witness :
    fetch_tle "1" (Except.ok ["a", "b"]) none =
      Except.ok (("a", "b"), some [("1", ["a", "b"])]) ∧
    fetch_tle "1" (Except.error FetchErr.network)
        (some [("1", ["a", "b"])]) =
      Except.ok (("a", "b"), some [("1", ["a", "b"])]) ∧
    fetch_tle "1" (Except.error FetchErr.network) none =
      Except.ok (dummy_tle, none) :=
  ⟨(C10_fetch_tle_fallback "1" (Except.ok ["a", "b"]) none).1
      "a" "b" [] rfl,
   (C10_fetch_tle_fallback "1" (Except.error FetchErr.network)
      (some [("1", ["a", "b"])])).2.1 FetchErr.network "a" "b" []
      [("1", ["a", "b"])] rfl rfl (by decide),
   (C10_fetch_tle_fallback "1" (Except.error FetchErr.network) none).2.2.1
      FetchErr.network rfl (fun cache h => by cases h)⟩
